import Mathlib

/-!
Verification of the portfolio web application's store and form logic.

The application (a single React module) keeps three pieces of view state —
a singleton user profile, an experience timeline and a project list — mirrored
from a remote document database, and mutates them through async operations
that first perform the remote write and, on success, update the local state.
This file gives a shallow embedding of that store, of the startup/loading
behaviour of `AppProvider`, of the admin forms' submit/add handlers, of the
`ProtectedRoute` gate and of the public gallery's tag filter, and proves the
specification's claims about them.

Remote calls are modelled by an explicit `Except` result passed to each
operation: `Except.error e` is a rejected promise (the `await` throws and the
rest of the async function body — the local `set*` call — never runs),
`Except.ok v` is a resolved one.
-/

/-- Models the whitespace test of JS `String.prototype.trim`. -/
def wsp (c : Char) : Bool := c.isWhitespace

/-- Trim on character lists: drop leading whitespace, then trailing whitespace. -/
def trimChars (l : List Char) : List Char :=
  (((l.dropWhile wsp).reverse).dropWhile wsp).reverse

/-- Models JS `s.trim()`. -/
def jsTrim (s : String) : String := String.mk (trimChars s.data)

/-- `interface Skill` (line 11). -/
structure Skill where
  name : String
deriving DecidableEq

/-- The non-identity fields of `interface Experience` (lines 15–22); the
store's `addExperience` receives an `Omit<Experience, 'id'>` of this shape. -/
structure ExperienceData where
  role : String
  company : String
  period : String
  description : String
  order : Int
deriving DecidableEq

/-- `interface Experience`: the data fields plus the document identity. -/
structure Experience extends ExperienceData where
  id : String
deriving DecidableEq

/-- The non-identity fields of `interface Project` (lines 24–34); the
store's `addProject` receives an `Omit<Project, 'id'>` of this shape.
`githubUrl`/`liveUrl` are optional in TS but always supplied as strings by
`ProjectForm` (empty string when absent). -/
structure ProjectData where
  title : String
  shortDescription : String
  longDescription : String
  technologies : List String
  imageUrl : String
  githubUrl : String
  liveUrl : String
  date : String
deriving DecidableEq

/-- `interface Project`: the data fields plus the document identity. -/
structure Project extends ProjectData where
  id : String
deriving DecidableEq

/-- The `contacts` record of `interface UserInfo`. -/
structure Contacts where
  email : String
  telegram : String
  linkedin : String
  github : String
deriving DecidableEq

/-- `interface UserInfo` (lines 36–50). -/
structure UserInfo where
  name : String
  specialization : String
  city : String
  bio : String
  avatarUrl : String
  resumeUrl : String
  contacts : Contacts
  skills : List Skill
deriving DecidableEq

/-- `defaultUserInfo` (lines 52–61). -/
def defaultUserInfo : UserInfo :=
  { name := "Загрузка..."
    specialization := "Fullstack-разработчик"
    city := "Город"
    bio := "Загрузка информации..."
    avatarUrl := ""
    resumeUrl := ""
    contacts := { email := "", telegram := "", linkedin := "", github := "" }
    skills := [] }

/-- Modelled from the spec: the external `Date` parse used by the project sort
comparator (`new Date(s).getTime()`). On the well-formed `YYYY-MM-DD` strings
the forms produce, the instant is order-isomorphic to the character string
read lexicographically, modelled here as a base-256 fold over the characters. -/
def dateValue (s : String) : Nat :=
  s.data.foldl (fun n c => n * 256 + c.toNat) 0

/-- The ordering established by the experience sort comparator
`(a, b) => b.order - a.order`: `a` may precede `b` iff `a.order ≥ b.order`. -/
def expGE (a b : Experience) : Prop := b.order ≤ a.order

instance : DecidableRel expGE :=
  fun a b => inferInstanceAs (Decidable (b.order ≤ a.order))

instance : IsTotal Experience expGE :=
  ⟨fun a b => Int.le_total b.order a.order⟩

instance : IsTrans Experience expGE :=
  ⟨fun _ _ _ hab hbc => Int.le_trans hbc hab⟩

/-- The ordering established by the project sort comparator
`(a, b) => new Date(b.date).getTime() - new Date(a.date).getTime()`:
`a` may precede `b` iff `a`'s date is not earlier. -/
def projGE (a b : Project) : Prop := dateValue b.date ≤ dateValue a.date

instance : DecidableRel projGE :=
  fun a b => inferInstanceAs (Decidable (dateValue b.date ≤ dateValue a.date))

instance : IsTotal Project projGE :=
  ⟨fun a b => Nat.le_total (dateValue b.date) (dateValue a.date)⟩

instance : IsTrans Project projGE :=
  ⟨fun _ _ _ hab hbc => Nat.le_trans hbc hab⟩

/-- `[...].sort((a, b) => b.order - a.order)` on the experience list. -/
def sortExperience (l : List Experience) : List Experience :=
  List.insertionSort expGE l

/-- `[...].sort((a, b) => dateB - dateA)` on the project list. -/
def sortProjects (l : List Project) : List Project :=
  List.insertionSort projGE l

/-- The view state held by `AppProvider`: `userInfo`, `experience`,
`projects`. -/
structure StoreState where
  userInfo : UserInfo
  experience : List Experience
  projects : List Project
deriving DecidableEq

/-- The `useState` initial values: `defaultUserInfo`, `[]`, `[]`. -/
def initialStoreState : StoreState :=
  { userInfo := defaultUserInfo, experience := [], projects := [] }

/-- `addProject` (lines 130–133): `await addDoc(...)` then prepend the new
document and re-sort by descending date. A rejected remote call aborts the
function before `setProjects` runs. -/
def addProject (remote : Except String String) (s : StoreState)
    (projectData : ProjectData) : StoreState :=
  match remote with
  | .error _ => s
  | .ok docId =>
      { s with projects :=
          sortProjects ({ toProjectData := projectData, id := docId } :: s.projects) }

/-- `updateProject` (lines 135–140): `await updateDoc(...)` then replace the
entry with matching id and re-sort by descending date. -/
def updateProject (remote : Except String Unit) (s : StoreState)
    (updatedProject : Project) : StoreState :=
  match remote with
  | .error _ => s
  | .ok _ =>
      { s with projects :=
          sortProjects (s.projects.map fun p =>
            if p.id = updatedProject.id then updatedProject else p) }

/-- `deleteProject` (lines 142–145): `await deleteDoc(...)` then
`prev.filter(p => p.id !== id)`. -/
def deleteProject (remote : Except String Unit) (s : StoreState)
    (id : String) : StoreState :=
  match remote with
  | .error _ => s
  | .ok _ =>
      { s with projects := s.projects.filter fun p => decide (p.id ≠ id) }

/-- `updateUserInfo` (lines 147–151): `await setDoc(..., merge)` then
`setUserInfo(newInfo)`. -/
def updateUserInfo (remote : Except String Unit) (s : StoreState)
    (newInfo : UserInfo) : StoreState :=
  match remote with
  | .error _ => s
  | .ok _ => { s with userInfo := newInfo }

/-- `addExperience` (lines 153–156): `await addDoc(...)` then prepend and
re-sort by descending `order`. -/
def addExperience (remote : Except String String) (s : StoreState)
    (expData : ExperienceData) : StoreState :=
  match remote with
  | .error _ => s
  | .ok docId =>
      { s with experience :=
          sortExperience ({ toExperienceData := expData, id := docId } :: s.experience) }

/-- `updateExperience` (lines 158–163): `await updateDoc(...)` then replace
the entry with matching id and re-sort by descending `order`. -/
def updateExperience (remote : Except String Unit) (s : StoreState)
    (updatedExp : Experience) : StoreState :=
  match remote with
  | .error _ => s
  | .ok _ =>
      { s with experience :=
          sortExperience (s.experience.map fun e =>
            if e.id = updatedExp.id then updatedExp else e) }

/-- `deleteExperience` (lines 165–168): `await deleteDoc(...)` then
`prev.filter(e => e.id !== id)`. -/
def deleteExperience (remote : Except String Unit) (s : StoreState)
    (id : String) : StoreState :=
  match remote with
  | .error _ => s
  | .ok _ =>
      { s with experience := s.experience.filter fun e => decide (e.id ≠ id) }

/-- The `userInfo` part of `fetchData`: set the profile only when the
snapshot exists. -/
def fetchUserInfo (s : StoreState) (snap : Option UserInfo) : StoreState :=
  match snap with
  | some ui => { s with userInfo := ui }
  | none => s

/-- The `experience` part of `fetchData`: the Firestore query
`orderBy('order', 'desc')` delivers the documents sorted; the external
query engine is modelled as sorting the raw collection. -/
def fetchExperience (s : StoreState) (docs : List Experience) : StoreState :=
  { s with experience := sortExperience docs }

/-- The `projects` part of `fetchData`: the Firestore query
`orderBy('date', 'desc')` delivers the documents sorted; the external query
engine is modelled as sorting the raw collection. -/
def fetchProjects (s : StoreState) (docs : List Project) : StoreState :=
  { s with projects := sortProjects docs }

/-- One store interaction: a stage of the initial fetch (the `try` block can
stop partway, so stages are separate operations) or one of the seven mutation
operations, each carrying its remote-call outcome. -/
inductive StoreOp where
  | fetchUser (snap : Option UserInfo)
  | fetchExp (docs : List Experience)
  | fetchProj (docs : List Project)
  | addProj (remote : Except String String) (d : ProjectData)
  | updProj (remote : Except String Unit) (p : Project)
  | delProj (remote : Except String Unit) (id : String)
  | updUser (remote : Except String Unit) (ui : UserInfo)
  | addExp (remote : Except String String) (d : ExperienceData)
  | updExp (remote : Except String Unit) (e : Experience)
  | delExp (remote : Except String Unit) (id : String)

/-- The effect of one store interaction on the view state. -/
def applyStoreOp (s : StoreState) : StoreOp → StoreState
  | .fetchUser snap => fetchUserInfo s snap
  | .fetchExp docs => fetchExperience s docs
  | .fetchProj docs => fetchProjects s docs
  | .addProj r d => addProject r s d
  | .updProj r p => updateProject r s p
  | .delProj r i => deleteProject r s i
  | .updUser r ui => updateUserInfo r s ui
  | .addExp r d => addExperience r s d
  | .updExp r e => updateExperience r s e
  | .delExp r i => deleteExperience r s i

/-- The view state after a sequence of store interactions, starting from the
mount-time initial state. -/
def runStore (ops : List StoreOp) : StoreState :=
  ops.foldl applyStoreOp initialStoreState

/-- The experience list is pairwise non-increasing in `order`. -/
def expSortedDesc (l : List Experience) : Prop := List.Sorted expGE l

/-- The project list is pairwise non-increasing in date. -/
def projSortedDesc (l : List Project) : Prop := List.Sorted projGE l

/-- The flags of `AppProvider` relevant to startup: the `loading` flag and
the current identity (`user`, modelled by its uid). -/
structure ProviderState where
  loading : Bool
  user : Option String
deriving DecidableEq

/-- One asynchronous completion during `AppProvider` startup: `fetchDone` is
the `finally` block of `fetchData` (`setLoading(false)`); `authFired u` is the
`onAuthStateChanged` callback (`setUser(u)`, then `setLoading(false)` — the
`loading` value captured by the mount-time closure is `true`, so the guarded
`setLoading(false)` always runs). -/
inductive StartupEvent where
  | fetchDone
  | authFired (currentUser : Option String)
deriving DecidableEq

/-- The effect of one startup completion on the provider flags. -/
def applyStartupEvent (s : ProviderState) : StartupEvent → ProviderState
  | .fetchDone => { s with loading := false }
  | .authFired u => { loading := false, user := u }

/-- The provider flags after a sequence of startup completions; at mount the
flag is `true` (`useState(true)`, and `fetchData` re-asserts `setLoading(true)`
synchronously before its first `await`). -/
def runStartup (evs : List StartupEvent) : ProviderState :=
  evs.foldl applyStartupEvent { loading := true, user := none }

/-- C2 as written: in every startup execution in which the data fetch and the
first identity check have not both completed, the loading flag is still true. -/
def loadingWaitsForBoth : Prop :=
  ∀ evs : List StartupEvent,
    ¬ (StartupEvent.fetchDone ∈ evs ∧ ∃ u, StartupEvent.authFired u ∈ evs) →
    (runStartup evs).loading = true

/-- What `ProtectedRoute` renders. -/
inductive RouteView where
  | authCheckMessage
  | adminSurface
  | redirectLogin
deriving DecidableEq

/-- `ProtectedRoute` (lines 382–386): while loading, a check-in-progress
message; afterwards the wrapped admin surface when a user is present,
otherwise `<Navigate to="/login" />`. -/
def protectedRoute (loading : Bool) (user : Option String) : RouteView :=
  if loading then .authCheckMessage
  else
    match user with
    | some _ => .adminSurface
    | none => .redirectLogin

/-- `ProjectForm.handleAddTech` (lines 412–418): trim the draft tag; append it
only when nonempty and not already present. -/
def handleAddTech (currentTech : String) (technologies : List String) : List String :=
  if jsTrim currentTech ≠ "" ∧ jsTrim currentTech ∉ technologies
  then technologies ++ [jsTrim currentTech]
  else technologies

/-- `UserInfoForm.handleAddSkill` (lines 553–560): trim the draft skill name;
append it only when nonempty and no existing skill has that exact name. -/
def handleAddSkill (newSkill : String) (skills : List Skill) : List Skill :=
  if jsTrim newSkill ≠ "" ∧ ¬ (∃ s ∈ skills, s.name = jsTrim newSkill)
  then skills ++ [⟨jsTrim newSkill⟩]
  else skills

/-- `ProjectForm.handleSubmit` (lines 431–442): the data passed to `onSave` is
the draft with the three URL fields trimmed (`(x || '').trim()`, where `|| ''`
is the identity on the string-typed draft fields). -/
def projectFormSubmit (formData : ProjectData) : ProjectData :=
  { formData with
    imageUrl := jsTrim formData.imageUrl
    githubUrl := jsTrim formData.githubUrl
    liveUrl := jsTrim formData.liveUrl }

/-- `UserInfoForm.handleSubmit` (lines 574–591): the data passed to `onSave`
is the draft with `avatarUrl`, `resumeUrl` and the four contact links
trimmed. -/
def userInfoFormSubmit (formData : UserInfo) : UserInfo :=
  { formData with
    avatarUrl := jsTrim formData.avatarUrl
    resumeUrl := jsTrim formData.resumeUrl
    contacts :=
      { email := jsTrim formData.contacts.email
        telegram := jsTrim formData.contacts.telegram
        linkedin := jsTrim formData.contacts.linkedin
        github := jsTrim formData.contacts.github } }

/-- One insertion into a JS `Set` iterated in insertion order: keep the list
unchanged when the element is already present, otherwise append it. -/
def jsSetInsert (seen : List String) (x : String) : List String :=
  if x ∈ seen then seen else seen ++ [x]

/-- `Array.from(new Set(list))`: deduplication keeping the first occurrence of
each element, in encounter order. -/
def jsSetDedup (l : List String) : List String :=
  l.foldl jsSetInsert []

/-- `allTechnologies` of `ProjectsPage` (line 327):
`['All', ...new Set(projects.flatMap(p => p.technologies))]`. -/
def allTechnologies (projects : List Project) : List String :=
  "All" :: jsSetDedup (projects.map fun p => p.technologies).flatten

/-- `filteredProjects` of `ProjectsPage` (line 328): the full list under the
`'All'` filter, otherwise the projects whose technologies include the active
filter. -/
def filteredProjects (projects : List Project) (activeFilter : String) : List Project :=
  if activeFilter = "All" then projects
  else projects.filter fun p => decide (activeFilter ∈ p.technologies)

/-- The displayed gallery list agrees with the selected tag: it holds exactly
the stored projects whose technology list contains the tag. -/
def galleryFilterAgrees (projects : List Project) (t : String) : Prop :=
  ∀ p, p ∈ filteredProjects projects t ↔ p ∈ projects ∧ t ∈ p.technologies

/-- Every stored technology name is trim-stable and nonempty. -/
def trimmedTechNames (l : List String) : Prop :=
  ∀ n ∈ l, jsTrim n = n ∧ n ≠ ""

/-- Every stored skill name is trim-stable and nonempty. -/
def trimmedSkillNames (l : List Skill) : Prop :=
  ∀ s ∈ l, jsTrim s.name = s.name ∧ s.name ≠ ""

/-- The string consists only of whitespace (in particular it may be empty). -/
def allWhitespace (s : String) : Prop :=
  ∀ c ∈ s.data, wsp c = true

instance (s : String) : Decidable (allWhitespace s) := by
  unfold allWhitespace; exact List.decidableBAll _ _

instance (l : List String) : Decidable (trimmedTechNames l) := by
  unfold trimmedTechNames; exact List.decidableBAll _ _

instance (l : List Skill) : Decidable (trimmedSkillNames l) := by
  unfold trimmedSkillNames; exact List.decidableBAll _ _

/-- The first project submission of the spec's gallery scenario. -/
def projX : ProjectData :=
  { title := "X", shortDescription := "", longDescription := ""
    technologies := ["Go"], imageUrl := "", githubUrl := "", liveUrl := ""
    date := "2024-01-01" }

/-- The second project submission of the spec's gallery scenario. -/
def projY : ProjectData :=
  { title := "Y", shortDescription := "", longDescription := ""
    technologies := ["Rust"], imageUrl := "", githubUrl := "", liveUrl := ""
    date := "2024-06-01" }

/-- The project list displayed after the two scenario submissions. -/
def sampleProjects : List Project :=
  [{ toProjectData := projY, id := "2" }, { toProjectData := projX, id := "1" }]

/-- A small concrete store state used to instantiate hypotheses. -/
def sampleState : StoreState :=
  { userInfo := defaultUserInfo
    experience := [{ role := "Dev", company := "Acme", period := "2020 - 2022"
                     description := "", order := (1 : Int), id := "e1" }]
    projects := sampleProjects }

theorem dropWhile_wsp_idem (l : List Char) :
    (l.dropWhile wsp).dropWhile wsp = l.dropWhile wsp := by
  induction l with
  | nil => rfl
  | cons a l ih =>
    by_cases h : wsp a = true
    · rw [List.dropWhile_cons, if_pos h]; exact ih
    · rw [List.dropWhile_cons, if_neg h, List.dropWhile_cons, if_neg h]

theorem exists_append_dropWhile (p : Char → Bool) (l : List Char) :
    ∃ t, t ++ l.dropWhile p = l := by
  induction l with
  | nil => exact ⟨[], rfl⟩
  | cons a l ih =>
    by_cases h : p a = true
    · obtain ⟨t, ht⟩ := ih
      refine ⟨a :: t, ?_⟩
      rw [List.dropWhile_cons, if_pos h, List.cons_append, ht]
    · exact ⟨[], by rw [List.dropWhile_cons, if_neg h, List.nil_append]⟩

theorem dropWhile_length_le (p : Char → Bool) (l : List Char) :
    (l.dropWhile p).length ≤ l.length := by
  induction l with
  | nil => exact Nat.le_refl 0
  | cons a l ih =>
    by_cases h : p a = true
    · rw [List.dropWhile_cons, if_pos h, List.length_cons]
      exact Nat.le_succ_of_le ih
    · rw [List.dropWhile_cons, if_neg h]

theorem dropWhile_eq_self_of_append (p : Char → Bool) (t u : List Char)
    (h : (t ++ u).dropWhile p = t ++ u) : t.dropWhile p = t := by
  cases t with
  | nil => rfl
  | cons a t' =>
    have ha : p a = false := by
      by_contra hcon
      have ha' : p a = true := by
        cases hpa : p a
        · exact absurd hpa hcon
        · rfl
      rw [List.cons_append, List.dropWhile_cons, if_pos ha'] at h
      have hlen := congrArg List.length h
      have hle := dropWhile_length_le p (t' ++ u)
      rw [List.length_cons] at hlen
      omega
    rw [List.dropWhile_cons, if_neg (by simp [ha])]

theorem trimChars_idem (l : List Char) : trimChars (trimChars l) = trimChars l := by
  obtain ⟨t, ht⟩ := exists_append_dropWhile wsp (l.dropWhile wsp).reverse
  have hAeq : l.dropWhile wsp =
      ((l.dropWhile wsp).reverse.dropWhile wsp).reverse ++ t.reverse := by
    have h2 := congrArg List.reverse ht
    rw [List.reverse_append, List.reverse_reverse] at h2
    exact h2.symm
  have hB := dropWhile_eq_self_of_append wsp
      ((l.dropWhile wsp).reverse.dropWhile wsp).reverse t.reverse
      (by rw [← hAeq]; exact dropWhile_wsp_idem l)
  unfold trimChars
  rw [hB, List.reverse_reverse, dropWhile_wsp_idem]

theorem jsTrim_idem (s : String) : jsTrim (jsTrim s) = jsTrim s :=
  congrArg String.mk (trimChars_idem s.data)

theorem jsTrim_eq_empty_of_allWhitespace (s : String) (h : allWhitespace s) :
    jsTrim s = "" := by
  have hd : s.data.dropWhile wsp = [] := List.dropWhile_eq_nil_iff.mpr h
  unfold jsTrim trimChars
  rw [hd]
  rfl

theorem runStore_invariant (P : StoreState → Prop)
    (step : ∀ s op, P s → P (applyStoreOp s op)) :
    ∀ (ops : List StoreOp) (s : StoreState), P s → P (List.foldl applyStoreOp s ops) := by
  intro ops
  induction ops with
  | nil => exact fun s h => h
  | cons op rest ih => exact fun s h => ih _ (step s op h)

theorem applyStoreOp_preserves_expSorted (s : StoreState) (op : StoreOp)
    (h : expSortedDesc s.experience) : expSortedDesc (applyStoreOp s op).experience := by
  cases op with
  | fetchUser snap => cases snap <;> exact h
  | fetchExp docs => exact List.sorted_insertionSort expGE docs
  | fetchProj docs => exact h
  | addProj r d => cases r <;> exact h
  | updProj r p => cases r <;> exact h
  | delProj r i => cases r <;> exact h
  | updUser r ui => cases r <;> exact h
  | addExp r d =>
    cases r with
    | error e => exact h
    | ok docId => exact List.sorted_insertionSort expGE _
  | updExp r e =>
    cases r with
    | error err => exact h
    | ok u => exact List.sorted_insertionSort expGE _
  | delExp r i =>
    cases r with
    | error e => exact h
    | ok u => exact h.filter _

theorem applyStoreOp_preserves_projSorted (s : StoreState) (op : StoreOp)
    (h : projSortedDesc s.projects) : projSortedDesc (applyStoreOp s op).projects := by
  cases op with
  | fetchUser snap => cases snap <;> exact h
  | fetchExp docs => exact h
  | fetchProj docs => exact List.sorted_insertionSort projGE docs
  | addProj r d =>
    cases r with
    | error e => exact h
    | ok docId => exact List.sorted_insertionSort projGE _
  | updProj r p =>
    cases r with
    | error e => exact h
    | ok u => exact List.sorted_insertionSort projGE _
  | delProj r i =>
    cases r with
    | error e => exact h
    | ok u => exact h.filter _
  | updUser r ui => cases r <;> exact h
  | addExp r d => cases r <;> exact h
  | updExp r e => cases r <;> exact h
  | delExp r i => cases r <;> exact h

theorem startup_loading_eq (evs : List StartupEvent) :
    ∀ s : ProviderState,
      (evs.foldl applyStartupEvent s).loading = (s.loading && evs.isEmpty) := by
  induction evs with
  | nil => intro s; rw [List.foldl_nil, List.isEmpty_nil, Bool.and_true]
  | cons e rest ih =>
    intro s
    rw [List.foldl_cons, ih]
    cases e <;> simp [applyStartupEvent]

theorem mem_jsSetInsert (acc : List String) (x s : String) :
    s ∈ jsSetInsert acc x ↔ s ∈ acc ∨ s = x := by
  unfold jsSetInsert
  by_cases hx : x ∈ acc
  · rw [if_pos hx]
    constructor
    · exact Or.inl
    · rintro (h | rfl)
      · exact h
      · exact hx
  · rw [if_neg hx]
    simp [List.mem_append]

theorem nodup_jsSetInsert (acc : List String) (x : String) (h : acc.Nodup) :
    (jsSetInsert acc x).Nodup := by
  unfold jsSetInsert
  by_cases hx : x ∈ acc
  · rwa [if_pos hx]
  · rw [if_neg hx]
    refine List.Nodup.append h (List.nodup_singleton x) ?_
    intro a ha hb
    rw [List.mem_singleton] at hb
    subst hb
    exact hx ha

theorem mem_foldl_jsSetInsert :
    ∀ (l acc : List String) (s : String),
      s ∈ l.foldl jsSetInsert acc ↔ s ∈ acc ∨ s ∈ l := by
  intro l
  induction l with
  | nil => intro acc s; simp
  | cons x xs ih =>
    intro acc s
    rw [List.foldl_cons, ih, mem_jsSetInsert]
    simp [List.mem_cons]
    tauto

theorem nodup_foldl_jsSetInsert :
    ∀ (l acc : List String), acc.Nodup → (l.foldl jsSetInsert acc).Nodup := by
  intro l
  induction l with
  | nil => exact fun acc h => h
  | cons x xs ih =>
    intro acc h
    rw [List.foldl_cons]
    exact ih _ (nodup_jsSetInsert acc x h)

theorem mem_jsSetDedup (l : List String) (s : String) :
    s ∈ jsSetDedup l ↔ s ∈ l := by
  unfold jsSetDedup
  rw [mem_foldl_jsSetInsert]
  simp

theorem nodup_jsSetDedup (l : List String) : (jsSetDedup l).Nodup :=
  nodup_foldl_jsSetInsert l [] List.nodup_nil

/-- C1: for every mutation operation of the store (`addProject`,
`updateProject`, `deleteProject`, `addExperience`, `updateExperience`,
`deleteExperience`, `updateUserInfo`) and every local state, a rejected
remote write leaves the view state (`projects`, `experience`, `userInfo`)
unchanged; the local update is applied only when the remote call succeeds. -/
theorem c1_failed_remote_write_leaves_state_unchanged :
    ∀ (s : StoreState) (e : String) (pd : ProjectData) (p : Project)
      (ed : ExperienceData) (ex : Experience) (ui : UserInfo) (i j : String),
      addProject (Except.error e) s pd = s ∧
      updateProject (Except.error e) s p = s ∧
      deleteProject (Except.error e) s i = s ∧
      addExperience (Except.error e) s ed = s ∧
      updateExperience (Except.error e) s ex = s ∧
      deleteExperience (Except.error e) s j = s ∧
      updateUserInfo (Except.error e) s ui = s ∧
      (∀ docId, (addProject (Except.ok docId) s pd).projects =
        sortProjects ({ toProjectData := pd, id := docId } :: s.projects)) ∧
      (∀ docId, (addExperience (Except.ok docId) s ed).experience =
        sortExperience ({ toExperienceData := ed, id := docId } :: s.experience)) ∧
      (updateUserInfo (Except.ok ()) s ui).userInfo = ui :=
  fun _ _ _ _ _ _ _ _ _ =>
    ⟨rfl, rfl, rfl, rfl, rfl, rfl, rfl, fun _ => rfl, fun _ => rfl, rfl⟩

/-- C2 counterexample: the claim that the loading flag stays true until BOTH
the initial data fetch and the first identity check have completed is false on
the code: in the concrete startup execution `[StartupEvent.fetchDone]` — the
fetch has completed, the first auth callback is still pending — the `finally`
block of `fetchData` has already set the flag to false. -/
theorem c2_counterexample_loading_claim_false : ¬ loadingWaitsForBoth := by
  intro h
  have h1 := h [StartupEvent.fetchDone] (by
    rintro ⟨-, u, hu⟩
    simp at hu)
  exact absurd h1 (by decide)

/-- C2 (amended): the loading flag is true exactly until the FIRST startup
completion: it starts true and becomes false as soon as either the initial
data fetch or the first identity check completes, even while the other is
still pending. -/
theorem c2_amended_loading_false_after_first_completion :
    ∀ evs : List StartupEvent, (runStartup evs).loading = evs.isEmpty := by
  intro evs
  unfold runStartup
  rw [startup_loading_eq]
  exact Bool.true_and _

/-- C3: in every sequence of store interactions (initial fetch and the
experience mutations, each with any remote outcome), the experience list is
sorted by non-increasing integer `order` after every operation. -/
theorem c3_experience_list_always_sorted :
    ∀ ops : List StoreOp, expSortedDesc (runStore ops).experience := by
  intro ops
  exact runStore_invariant (fun st => expSortedDesc st.experience)
    applyStoreOp_preserves_expSorted ops initialStoreState List.sorted_nil

/-- C4: in every sequence of store interactions, the project list is sorted by
non-increasing date after every operation; in particular adding the project
dated 2024-01-01 and then the one dated 2024-06-01 lists the later-dated
project first. -/
theorem c4_project_list_always_sorted_and_scenario :
    (∀ ops : List StoreOp, projSortedDesc (runStore ops).projects) ∧
    (runStore [StoreOp.addProj (Except.ok "1") projX,
               StoreOp.addProj (Except.ok "2") projY]).projects.map
      (fun p => p.title) = ["Y", "X"] := by
  constructor
  · intro ops
    exact runStore_invariant (fun st => projSortedDesc st.projects)
      applyStoreOp_preserves_projSorted ops initialStoreState List.sorted_nil
  · decide

/-- C5: adding a technology or a skill whose trimmed name already occurs in
the list (case-sensitive exact match) leaves the list unchanged — in
particular unchanged in length. -/
theorem c5_duplicate_add_leaves_list_unchanged :
    ∀ (input : String) (techs : List String) (skills : List Skill),
      (jsTrim input ∈ techs → handleAddTech input techs = techs) ∧
      ((∃ s ∈ skills, s.name = jsTrim input) →
        handleAddSkill input skills = skills) := by
  intro input techs skills
  constructor
  · intro hmem
    unfold handleAddTech
    rw [if_neg fun hc => hc.2 hmem]
  · intro hex
    unfold handleAddSkill
    rw [if_neg fun hc => hc.2 hex]

/-- C5 witness: a concrete duplicate technology add and a concrete duplicate
skill add are both no-ops. -/
theorem c5_witness :
    handleAddTech " Go " ["Go"] = ["Go"] ∧
    handleAddSkill "Go" [⟨"Go"⟩] = [⟨"Go"⟩] :=
  ⟨(c5_duplicate_add_leaves_list_unchanged " Go " ["Go"] []).1 (by decide),
   (c5_duplicate_add_leaves_list_unchanged "Go" [] [⟨"Go"⟩]).2 (by decide)⟩

/-- C6: on both form submissions, every URL-like field of the data handed to
the save operation equals the whitespace-trimmed draft value (`avatarUrl`,
`resumeUrl` and the four contact links for the profile form; `imageUrl`,
`githubUrl`, `liveUrl` for the project form). -/
theorem c6_url_fields_trimmed_on_submit :
    ∀ (ui : UserInfo) (pf : ProjectData),
      (userInfoFormSubmit ui).avatarUrl = jsTrim ui.avatarUrl ∧
      (userInfoFormSubmit ui).resumeUrl = jsTrim ui.resumeUrl ∧
      (userInfoFormSubmit ui).contacts.email = jsTrim ui.contacts.email ∧
      (userInfoFormSubmit ui).contacts.telegram = jsTrim ui.contacts.telegram ∧
      (userInfoFormSubmit ui).contacts.linkedin = jsTrim ui.contacts.linkedin ∧
      (userInfoFormSubmit ui).contacts.github = jsTrim ui.contacts.github ∧
      (projectFormSubmit pf).imageUrl = jsTrim pf.imageUrl ∧
      (projectFormSubmit pf).githubUrl = jsTrim pf.githubUrl ∧
      (projectFormSubmit pf).liveUrl = jsTrim pf.liveUrl :=
  fun _ _ => ⟨rfl, rfl, rfl, rfl, rfl, rfl, rfl, rfl, rfl⟩

/-- C7: once loading has completed, the admin route renders the redirect to
login when no session is present and the admin surface when one is; the
outcome depends only on whether the session is present. -/
theorem c7_admin_route_gate :
    protectedRoute false none = RouteView.redirectLogin ∧
    (∀ u : String, protectedRoute false (some u) = RouteView.adminSurface) ∧
    (∀ user : Option String,
      protectedRoute false user =
        if user.isSome then RouteView.adminSurface else RouteView.redirectLogin) := by
  refine ⟨rfl, fun u => rfl, fun user => ?_⟩
  cases user <;> rfl

/-- C8: the gallery's option set is `'All'` followed by the union of the
projects' technology tags deduplicated in first-occurrence order; selecting
`'All'` displays the full list, and selecting any other tag displays exactly
the projects whose technology list contains it, in stored order; filtering the
scenario list by `"Go"` yields only the project titled `X`. -/
theorem c8_gallery_options_and_filter :
    ∀ (projects : List Project) (t : String),
      allTechnologies projects =
        "All" :: jsSetDedup (projects.map fun p => p.technologies).flatten ∧
      (jsSetDedup (projects.map fun p => p.technologies).flatten).Nodup ∧
      (∀ tag, tag ∈ jsSetDedup (projects.map fun p => p.technologies).flatten ↔
        ∃ p ∈ projects, tag ∈ p.technologies) ∧
      filteredProjects projects "All" = projects ∧
      (t ≠ "All" →
        galleryFilterAgrees projects t ∧
        (filteredProjects projects t).Sublist projects) ∧
      (filteredProjects sampleProjects "Go").map (fun p => p.title) = ["X"] := by
  intro projects t
  refine ⟨rfl, nodup_jsSetDedup _, ?_, ?_, ?_, ?_⟩
  · intro tag
    rw [mem_jsSetDedup, List.mem_flatten]
    constructor
    · rintro ⟨l, hl, htag⟩
      rcases List.mem_map.mp hl with ⟨p, hp, rfl⟩
      exact ⟨p, hp, htag⟩
    · rintro ⟨p, hp, htag⟩
      exact ⟨p.technologies, List.mem_map.mpr ⟨p, hp, rfl⟩, htag⟩
  · unfold filteredProjects
    rw [if_pos rfl]
  · intro ht
    constructor
    · intro p
      unfold filteredProjects
      rw [if_neg ht]
      simp [List.mem_filter]
    · unfold filteredProjects
      rw [if_neg ht]
      exact List.filter_sublist _
  · decide

/-- C8 witness: for the scenario project list and the concrete tag `"Go"`
(which is not `'All'`), the displayed list agrees with the tag and is an
order-preserving sublist of the stored list. -/
theorem c8_witness :
    galleryFilterAgrees sampleProjects "Go" ∧
    (filteredProjects sampleProjects "Go").Sublist sampleProjects :=
  (c8_gallery_options_and_filter sampleProjects "Go").2.2.2.2.1 (by decide)

/-- C9: the success path of `deleteProject`/`deleteExperience` removes exactly
the entries whose id equals the argument, keeps every other entry and their
relative order (the result is a sublist), and is a no-op when no entry has
that id. -/
theorem c9_delete_removes_exactly_matching_ids :
    ∀ (s : StoreState) (pid eid : String),
      ((deleteProject (Except.ok ()) s pid).projects).Sublist s.projects ∧
      (∀ p, p ∈ (deleteProject (Except.ok ()) s pid).projects ↔
        p ∈ s.projects ∧ p.id ≠ pid) ∧
      ((∀ p ∈ s.projects, p.id ≠ pid) →
        (deleteProject (Except.ok ()) s pid).projects = s.projects) ∧
      ((deleteExperience (Except.ok ()) s eid).experience).Sublist s.experience ∧
      (∀ e, e ∈ (deleteExperience (Except.ok ()) s eid).experience ↔
        e ∈ s.experience ∧ e.id ≠ eid) ∧
      ((∀ e ∈ s.experience, e.id ≠ eid) →
        (deleteExperience (Except.ok ()) s eid).experience = s.experience) := by
  intro s pid eid
  refine ⟨List.filter_sublist _, ?_, ?_, List.filter_sublist _, ?_, ?_⟩
  · intro p
    simp [deleteProject, List.mem_filter]
  · intro hall
    show s.projects.filter _ = s.projects
    rw [List.filter_eq_self]
    intro p hp
    simpa using hall p hp
  · intro e
    simp [deleteExperience, List.mem_filter]
  · intro hall
    show s.experience.filter _ = s.experience
    rw [List.filter_eq_self]
    intro e he
    simpa using hall e he

/-- C9 witness: deleting an id absent from the concrete sample state leaves
both lists unchanged. -/
theorem c9_witness :
    (deleteProject (Except.ok ()) sampleState "zzz").projects =
      sampleState.projects ∧
    (deleteExperience (Except.ok ()) sampleState "zzz").experience =
      sampleState.experience :=
  ⟨(c9_delete_removes_exactly_matching_ids sampleState "zzz" "zzz").2.2.1
      (by decide),
   (c9_delete_removes_exactly_matching_ids sampleState "zzz" "zzz").2.2.2.2.2
      (by decide)⟩

/-- C10: a whitespace-only (or empty) input leaves the technology and skill
lists unchanged; every add is either a no-op or appends exactly the trimmed
input; and both adds preserve the invariant that every stored name is
trim-stable and nonempty. -/
theorem c10_add_trims_and_rejects_whitespace :
    ∀ (input : String) (techs : List String) (skills : List Skill),
      (allWhitespace input →
        handleAddTech input techs = techs ∧
        handleAddSkill input skills = skills) ∧
      (handleAddTech input techs = techs ∨
        handleAddTech input techs = techs ++ [jsTrim input]) ∧
      (handleAddSkill input skills = skills ∨
        handleAddSkill input skills = skills ++ [⟨jsTrim input⟩]) ∧
      (trimmedTechNames techs → trimmedTechNames (handleAddTech input techs)) ∧
      (trimmedSkillNames skills →
        trimmedSkillNames (handleAddSkill input skills)) := by
  intro input techs skills
  refine ⟨?_, ?_, ?_, ?_, ?_⟩
  · intro hws
    have h0 : jsTrim input = "" := jsTrim_eq_empty_of_allWhitespace input hws
    constructor
    · unfold handleAddTech
      rw [if_neg fun hc => hc.1 h0]
    · unfold handleAddSkill
      rw [if_neg fun hc => hc.1 h0]
  · unfold handleAddTech
    by_cases hc : jsTrim input ≠ "" ∧ jsTrim input ∉ techs
    · rw [if_pos hc]
      exact Or.inr rfl
    · rw [if_neg hc]
      exact Or.inl rfl
  · unfold handleAddSkill
    by_cases hc : jsTrim input ≠ "" ∧ ¬ (∃ s ∈ skills, s.name = jsTrim input)
    · rw [if_pos hc]
      exact Or.inr rfl
    · rw [if_neg hc]
      exact Or.inl rfl
  · intro hgood
    unfold handleAddTech
    by_cases hc : jsTrim input ≠ "" ∧ jsTrim input ∉ techs
    · rw [if_pos hc]
      intro n hn
      rcases List.mem_append.mp hn with h | h
      · exact hgood n h
      · rw [List.mem_singleton] at h
        subst h
        exact ⟨jsTrim_idem input, hc.1⟩
    · rw [if_neg hc]
      exact hgood
  · intro hgood
    unfold handleAddSkill
    by_cases hc : jsTrim input ≠ "" ∧ ¬ (∃ s ∈ skills, s.name = jsTrim input)
    · rw [if_pos hc]
      intro sk hsk
      rcases List.mem_append.mp hsk with h | h
      · exact hgood sk h
      · rw [List.mem_singleton] at h
        subst h
        exact ⟨jsTrim_idem input, hc.1⟩
    · rw [if_neg hc]
      exact hgood

/-- C10 witness: a whitespace-only add is a no-op on a concrete list, and
concrete accepted adds keep every stored name trim-stable and nonempty. -/
theorem c10_witness :
    handleAddTech "   " ["Go"] = ["Go"] ∧
    trimmedTechNames (handleAddTech " Rust " ["Go"]) ∧
    trimmedSkillNames (handleAddSkill " TS " [⟨"Go"⟩]) :=
  ⟨((c10_add_trims_and_rejects_whitespace "   " ["Go"] []).1 (by decide)).1,
   (c10_add_trims_and_rejects_whitespace " Rust " ["Go"] []).2.2.2.1 (by decide),
   (c10_add_trims_and_rejects_whitespace " TS " [] [⟨"Go"⟩]).2.2.2.2 (by decide)⟩
